import Mathlib

/-!
Verification of the geometry core of `impy/ImagePreprocess.py`.

The Python integers are modelled as `ℤ`.  The unbounded `while` loops of
`get_valid_padding` / `get_same_padding` are modelled with an explicit fuel
parameter: a result of `none` means the loop did not finish within the given
fuel (for every fuel at once: the loop never terminates).  Python exceptions
(`assert`, `raise`) are modelled with `Except String`; a Python `min`/`max`
over an empty list (a `ValueError`) is modelled with `Option`.
-/

/-- A bounding box `[x0, y0, x1, y1]` as used throughout `ImagePreprocess.py`. -/
structure Box where
  x0 : ℤ
  y0 : ℤ
  x1 : ℤ
  y1 : ℤ
deriving DecidableEq, Repr

/-- One grow-until-exceeds loop from `get_valid_padding` / `get_same_padding`
(lines 486-502 and 527-542): starting from `slide_window`, repeatedly add
`stride` while `slide_window <= image`, counting iterations.  Returns
`(number_patches, final slide_window)`; `none` when the fuel is exhausted
before the loop exits. -/
def growLoop : ℕ → ℤ → ℤ → ℤ → Option (ℤ × ℤ)
  | 0, _, _, _ => none
  | fuel + 1, slide_window, stride, image =>
    if slide_window ≤ image then
      match growLoop fuel (slide_window + stride) stride image with
      | some (n, w) => some (n + 1, w)
      | none => none
    else
      some (0, slide_window)

/-- Modelled from the spec: the closed-form VALID patch count
`0` if `windowDim > targetDim`, else `floor((targetDim - windowDim)/strideDim) + 1`. -/
def countValidPatchesSpec (windowDim strideDim targetDim : ℤ) : ℤ :=
  if targetDim < windowDim then 0 else (targetDim - windowDim) / strideDim + 1

/-- `ImagePreprocess.get_valid_padding` (lines 466-502): run the grow loop on the
height axis and on the width axis and return the two patch counts. -/
def get_valid_padding (fuel : ℕ)
    (slide_window_height stride_height image_height
     slide_window_width stride_width image_width : ℤ) : Option (ℤ × ℤ) :=
  match growLoop fuel slide_window_height stride_height image_height,
        growLoop fuel slide_window_width stride_width image_width with
  | some (nh, _), some (nw, _) => some (nh, nw)
  | _, _ => none

/-- `ImagePreprocess.get_same_padding` (lines 504-565): run the two grow loops,
subtract one stride from each final slide window, then compute the zeros to
add per axis; the Python `assert`s become `Except.error`.  The width branch is
evaluated first, as in the source.  Returns `(zeros_h, zeros_w)`. -/
def get_same_padding (fuel : ℕ)
    (slide_window_height stride_height image_height
     slide_window_width stride_width image_width : ℤ) :
    Option (Except String (ℤ × ℤ)) :=
  match growLoop fuel slide_window_height stride_height image_height,
        growLoop fuel slide_window_width stride_width image_width with
  | some (_, fh), some (_, fw) =>
    some (
      if fw - stride_width = image_width then
        if fh - stride_height = image_height then Except.ok (0, 0)
        else if fh - stride_height < image_height then
          Except.ok ((fh - stride_height) + stride_height - image_height, 0)
        else Except.error ("Slide window + stride is bigger than height")
      else if fw - stride_width < image_width then
        if fh - stride_height = image_height then
          Except.ok (0, (fw - stride_width) + stride_width - image_width)
        else if fh - stride_height < image_height then
          Except.ok ((fh - stride_height) + stride_height - image_height,
                     (fw - stride_width) + stride_width - image_width)
        else Except.error ("Slide window + stride is bigger than height")
      else Except.error ("Slide window + stride is bigger than width"))
  | _, _ => none

/-- Modelled from the spec: per-axis SAME padding,
`fittedExtent = windowDim + strideDim * (count - 1)`;
`0` when `fittedExtent = targetDim`, else `fittedExtent + strideDim - targetDim`. -/
def samePaddingSpec (windowDim strideDim targetDim : ℤ) : ℤ :=
  if windowDim + strideDim * (countValidPatchesSpec windowDim strideDim targetDim - 1)
      = targetDim then 0
  else windowDim + strideDim * (countValidPatchesSpec windowDim strideDim targetDim - 1)
      + strideDim - targetDim

theorem countValidPatchesSpec_step {s : ℤ} (hs : 0 < s) {w t : ℤ} (hwt : w ≤ t) :
    countValidPatchesSpec w s t = countValidPatchesSpec (w + s) s t + 1 := by
  unfold countValidPatchesSpec
  rw [if_neg (not_lt.mpr hwt)]
  by_cases h : t < w + s
  · rw [if_pos h, Int.ediv_eq_zero_of_lt (by omega) (by omega)]
  · rw [if_neg h]
    have hrw : t - w = (t - (w + s)) + 1 * s := by ring
    rw [hrw, Int.add_mul_ediv_right _ _ hs.ne']

theorem growLoop_sound {s t : ℤ} (hs : 0 < s) :
    ∀ (fuel : ℕ) (w : ℤ) (r : ℤ × ℤ), growLoop fuel w s t = some r →
      r = (countValidPatchesSpec w s t, w + s * countValidPatchesSpec w s t) := by
  intro fuel
  induction fuel with
  | zero => intro w r h; simp [growLoop] at h
  | succ n ih =>
    intro w r h
    by_cases hwt : w ≤ t
    · rw [growLoop, if_pos hwt] at h
      cases hrec : growLoop n (w + s) s t with
      | none => rw [hrec] at h; exact absurd h (by simp)
      | some p =>
        obtain ⟨m, v⟩ := p
        rw [hrec] at h
        simp only [Option.some.injEq] at h
        have := ih (w + s) (m, v) hrec
        simp only [Prod.mk.injEq] at this
        rw [countValidPatchesSpec_step hs hwt]
        subst h
        simp only [Prod.mk.injEq]
        constructor
        · omega
        · rw [this.2]; ring
    · rw [growLoop, if_neg hwt] at h
      simp only [Option.some.injEq] at h
      subst h
      have h0 : countValidPatchesSpec w s t = 0 := by
        unfold countValidPatchesSpec; rw [if_pos (by omega)]
      rw [h0]
      simp

theorem growLoop_exit (fuel : ℕ) {w s t : ℤ} (h : ¬ w ≤ t) :
    growLoop (fuel + 1) w s t = some (0, w) := by
  rw [growLoop, if_neg h]

theorem growLoop_isSome {s t : ℤ} (hs : 0 < s) :
    ∀ (fuel : ℕ) (w : ℤ), (t - w).toNat + 2 ≤ fuel → (growLoop fuel w s t).isSome := by
  intro fuel
  induction fuel with
  | zero => intro w h; omega
  | succ n ih =>
    intro w hle
    by_cases hwt : w ≤ t
    · rw [growLoop, if_pos hwt]
      by_cases hnext : w + s ≤ t
      · have := ih (w + s) (by omega)
        cases hrec : growLoop n (w + s) s t with
        | none => rw [hrec] at this; simp at this
        | some p => cases p; simp
      · obtain ⟨m, rfl⟩ : ∃ m, n = m + 1 := ⟨n - 1, by omega⟩
        rw [growLoop_exit m hnext]
        simp
    · rw [growLoop, if_neg hwt]; simp

theorem growLoop_eq {s t : ℤ} (hs : 0 < s) {fuel : ℕ} {w : ℤ}
    (hfuel : (t - w).toNat + 2 ≤ fuel) :
    growLoop fuel w s t
      = some (countValidPatchesSpec w s t, w + s * countValidPatchesSpec w s t) := by
  have h1 := growLoop_isSome hs fuel w hfuel
  cases hr : growLoop fuel w s t with
  | none => rw [hr] at h1; simp at h1
  | some r => rw [growLoop_sound hs fuel w r hr]

/-- If the stride is non-positive and the window does not already exceed the
target, the grow loop never exits: it returns `none` for every fuel. -/
theorem growLoop_nonpos_stride_none (s t : ℤ) (hs : s ≤ 0) :
    ∀ (fuel : ℕ) (w : ℤ), w ≤ t → growLoop fuel w s t = none := by
  intro fuel
  induction fuel with
  | zero => intro w _; rfl
  | succ n ih =>
    intro w hwt
    rw [growLoop, if_pos hwt, ih (w + s) (by omega)]

/-- Claim C1: for positive window, stride and target the iterative
grow-until-exceeds loop of `get_valid_padding` returns exactly the closed-form
count `0` when `windowDim > targetDim` and `floor((targetDim - windowDim) /
strideDim) + 1` otherwise; in particular the count for `(10, 5, 25)` is `4`. -/
theorem countValidPatches_closed_form (w s t : ℤ)
    (hw : 0 < w) (hs : 0 < s) (ht : 0 < t) :
    growLoop ((t - w).toNat + 2) w s t
      = some (countValidPatchesSpec w s t, w + s * countValidPatchesSpec w s t)
    ∧ (t < w → countValidPatchesSpec w s t = 0)
    ∧ (w ≤ t → countValidPatchesSpec w s t = (t - w) / s + 1)
    ∧ countValidPatchesSpec 10 5 25 = 4 := by
  refine ⟨growLoop_eq hs le_rfl, ?_, ?_, by decide⟩
  · intro h; unfold countValidPatchesSpec; rw [if_pos h]
  · intro h; unfold countValidPatchesSpec; rw [if_neg (not_lt.mpr h)]

theorem countValidPatches_closed_form_check :
    growLoop (((25 : ℤ) - 10).toNat + 2) 10 5 25
      = some (countValidPatchesSpec 10 5 25, 10 + 5 * countValidPatchesSpec 10 5 25)
    ∧ countValidPatchesSpec 10 5 25 = 4 :=
  ⟨(countValidPatches_closed_form 10 5 25 (by decide) (by decide) (by decide)).1,
   (countValidPatches_closed_form 10 5 25 (by decide) (by decide) (by decide)).2.2.2⟩

/-- Claim C2 (code bug): with `strideDim = 0` (and window `10 ≤ target 25`)
neither `get_valid_padding` nor `get_same_padding` signals any error: the
grow loop simply never terminates, returning no result for every fuel bound.
There is no `InvalidGeometry` check anywhere in the code. -/
theorem stride_zero_loops_forever :
    ∀ fuel : ℕ, growLoop fuel 10 0 25 = none
      ∧ get_valid_padding fuel 10 0 25 10 0 25 = none
      ∧ get_same_padding fuel 10 0 25 10 0 25 = none := by
  intro fuel
  have h := growLoop_nonpos_stride_none 0 25 le_rfl fuel 10 (by norm_num)
  refine ⟨h, ?_, ?_⟩
  · unfold get_valid_padding; rw [h]
  · unfold get_same_padding; rw [h]

theorem samePaddingSpec_branch {s : ℤ} (hs : 0 < s) {w t : ℤ} (hwt : w ≤ t) :
    (w + s * countValidPatchesSpec w s t) - s ≤ t
    ∧ t < w + s * countValidPatchesSpec w s t
    ∧ samePaddingSpec w s t
        = (if w + s * countValidPatchesSpec w s t - s = t then 0
           else (w + s * countValidPatchesSpec w s t - s) + s - t)
    ∧ 0 ≤ samePaddingSpec w s t := by
  have hch : countValidPatchesSpec w s t = (t - w) / s + 1 := by
    unfold countValidPatchesSpec; rw [if_neg (not_lt.mpr hwt)]
  have h1 := Int.ediv_add_emod (t - w) s
  have h2 := Int.emod_nonneg (t - w) hs.ne'
  have h3 := Int.emod_lt_of_pos (t - w) hs
  have hprod : s * countValidPatchesSpec w s t = s * ((t - w) / s) + s := by
    rw [hch]; ring
  have hb1 : (w + s * countValidPatchesSpec w s t) - s ≤ t := by
    rw [hprod]; linarith
  have hb2 : t < w + s * countValidPatchesSpec w s t := by
    rw [hprod]; linarith
  have hfit : w + s * (countValidPatchesSpec w s t - 1)
      = w + s * countValidPatchesSpec w s t - s := by ring
  have hform : samePaddingSpec w s t
      = (if w + s * countValidPatchesSpec w s t - s = t then 0
         else (w + s * countValidPatchesSpec w s t - s) + s - t) := by
    unfold samePaddingSpec
    rw [hfit]
  refine ⟨hb1, hb2, hform, ?_⟩
  rw [hform]
  split_ifs with h
  · exact le_refl 0
  · linarith

/-- Claim C3 (amended): for positive windows, strides and targets with
`windowDim ≤ targetDim` on both axes, `get_same_padding` returns per axis
`0` when `fittedExtent = windowDim + strideDim * (count - 1)` equals the
target and `fittedExtent + strideDim - targetDim` otherwise; both results are
non-negative, and `samePaddingSpec 10 5 23 = 2` (concrete scenario 2).  When
`windowDim - strideDim > targetDim` the code instead fails its own `assert`
(see the counterexample). -/
theorem get_same_padding_formula (swh sh ih sww sw iw : ℤ) (fuel : ℕ)
    (hsh : 0 < sh) (hsw : 0 < sw)
    (hwh : 0 < swh) (hww : 0 < sww) (hih : 0 < ih) (hiw : 0 < iw)
    (hwhle : swh ≤ ih) (hwwle : sww ≤ iw)
    (hf1 : (ih - swh).toNat + 2 ≤ fuel) (hf2 : (iw - sww).toNat + 2 ≤ fuel) :
    get_same_padding fuel swh sh ih sww sw iw
      = some (Except.ok (samePaddingSpec swh sh ih, samePaddingSpec sww sw iw))
    ∧ 0 ≤ samePaddingSpec swh sh ih
    ∧ 0 ≤ samePaddingSpec sww sw iw
    ∧ samePaddingSpec 10 5 23 = 2 := by
  have hH := samePaddingSpec_branch hsh hwhle
  have hW := samePaddingSpec_branch hsw hwwle
  have gh := growLoop_eq hsh hf1
  have gw := growLoop_eq hsw hf2
  refine ⟨?_, hH.2.2.2, hW.2.2.2, by decide⟩
  unfold get_same_padding
  rw [gh, gw]
  dsimp only
  rw [hH.2.2.1, hW.2.2.1]
  have hbH1 := hH.1
  have hbW1 := hW.1
  split_ifs with h1 h2 h3 h4 h5 h6 h7 <;> first
    | rfl
    | (exfalso; omega)

theorem get_same_padding_formula_check :
    get_same_padding 15 10 5 23 10 5 23
      = some (Except.ok (samePaddingSpec 10 5 23, samePaddingSpec 10 5 23))
    ∧ samePaddingSpec 10 5 23 = 2 :=
  ⟨(get_same_padding_formula 10 5 23 10 5 23 15 (by decide) (by decide) (by decide)
      (by decide) (by decide) (by decide) (by decide) (by decide) (by decide)
      (by decide)).1,
   (get_same_padding_formula 10 5 23 10 5 23 15 (by decide) (by decide) (by decide)
      (by decide) (by decide) (by decide) (by decide) (by decide) (by decide)
      (by decide)).2.2.2⟩

/-- Claim C3 counterexample: at window 12, stride 1, target 5 (both axes) the
spec formula predicts `zeros = fittedExtent + strideDim - targetDim = 7`, but
the code raises an `AssertionError` instead of returning anything. -/
theorem get_same_padding_assert_cex :
    get_same_padding 5 12 1 5 12 1 5
      = some (Except.error ("Slide window + stride is bigger than width"))
    ∧ samePaddingSpec 12 1 5 = 7
    ∧ (Except.error ("Slide window + stride is bigger than width")
        ≠ (Except.ok ((7 : ℤ), (7 : ℤ)) : Except String (ℤ × ℤ))) :=
  ⟨rfl, by decide, by simp⟩

/-- Python `min` over a list (raises on empty, hence `Option`). -/
def listMin : List ℤ → Option ℤ
  | [] => none
  | x :: xs => some (xs.foldl min x)

/-- Python `max` over a list (raises on empty, hence `Option`). -/
def listMax : List ℤ → Option ℤ
  | [] => none
  | x :: xs => some (xs.foldl max x)

/-- `adjustImage` lines 101-107: the x coordinates `bndbox[0]`, `bndbox[2]`
collected from every box. -/
def xCoords : List Box → List ℤ
  | [] => []
  | b :: bs => b.x0 :: b.x1 :: xCoords bs

/-- `adjustImage` lines 101-107: the y coordinates `bndbox[1]`, `bndbox[3]`
collected from every box. -/
def yCoords : List Box → List ℤ
  | [] => []
  | b :: bs => b.y0 :: b.y1 :: yCoords bs

/-- `adjustImage` lines 89-94: when the offset is at least as large as a frame
dimension, both offsets are replaced by `min(frameWidth, frameHeight) - 10`.
Returns `(widthOffset, heightOffset)`. -/
def effOffset (frameHeight frameWidth offsetW offsetH : ℤ) : ℤ × ℤ :=
  if frameWidth ≤ offsetW ∨ frameHeight ≤ offsetH then
    (min frameWidth frameHeight - 10, min frameWidth frameHeight - 10)
  else (offsetW, offsetH)

/-- `adjustImage` lines 111-118: the extra space to add on an axis;
`10` when the ROI already meets the offset, else `offset - roi`. -/
def extraFor (offsetDim roiDim : ℤ) : ℤ :=
  if offsetDim ≤ roiDim then 10 else offsetDim - roiDim

/-- `adjustImage` lines 133-183 (the width axis): from the union bounds
`xmin, xmax` and the split offsets `oL = offsetXLeft`, `oR = offsetXRight`,
produce `(RoiXMin, RoiXMax)`.  Python's in-place updates
`offsetXLeft -= availableSpaceLeft` and `offsetXRight -= availableSpaceRight`
are inlined as `oL - xmin` and `oR - (frameWidth - xmax)`. -/
def adjustX (frameWidth xmin xmax oL oR : ℤ) : ℤ × ℤ :=
  if xmin - oL < 0 then
    (0,
     if xmax + (oL - xmin) + oR < frameWidth then xmax + (oL - xmin) + oR
     else if xmax + (oL - xmin) + oR = frameWidth then frameWidth
     else if xmax + oR < frameWidth then xmax + oR
     else if xmax + oR = frameWidth then frameWidth
     else frameWidth)
  else
    if xmax + oR < frameWidth then (xmin - oL, xmax + oR)
    else if xmax + oR = frameWidth then (xmin - oL, frameWidth)
    else
      if 0 < xmin - oL - (oR - (frameWidth - xmax)) then
        (xmin - oL - (oR - (frameWidth - xmax)), frameWidth)
      else if xmin - oL - (oR - (frameWidth - xmax)) = 0 then (0, frameWidth)
      else (xmin - oL, frameWidth)

/-- `adjustImage` lines 184-233 (the height axis): from `ymin, ymax` and the
split offsets `oT = offsetYTop`, `oB = offsetYBottom`, produce
`(RoiYMin, RoiYMax)`.  Note line 216 of the source: in the in-bounds branch
the bottom edge is `ymax + offsetYTop`, not `ymax + offsetYBottom`. -/
def adjustY (frameHeight ymin ymax oT oB : ℤ) : ℤ × ℤ :=
  if ymin - oT < 0 then
    (0,
     if ymax + (oT - ymin) + oB < frameHeight then ymax + (oT - ymin) + oB
     else if ymax + (oT - ymin) + oB = frameHeight then frameHeight
     else if ymax + oB < frameHeight then ymax + oB
     else if ymax + oB = frameHeight then frameHeight
     else frameHeight)
  else
    if ymax + oB < frameHeight then (ymin - oT, ymax + oT)
    else if ymax + oB = frameHeight then (ymin - oT, frameHeight)
    else
      if 0 < ymin - oT - (oB - (frameHeight - ymax)) then
        (ymin - oT - (oB - (frameHeight - ymax)), frameHeight)
      else if ymin - oT - (oB - (frameHeight - ymax)) = 0 then (0, frameHeight)
      else (ymin - oT, frameHeight)

/-- `ImagePreprocess.adjustImage` (lines 24-244): returns the crop rectangle
`(RoiXMin, RoiYMin, RoiXMax, RoiYMax)`.  `none` models Python's `ValueError`
from `min([])`/`max([])` on an empty box list.  The width split is
`offsetXLeft = offsetX // 2`, `offsetXRight = offsetX - offsetXLeft`; the
height split is `offsetYTop = offsetY - offsetY // 2`,
`offsetYBottom = offsetY - offsetYTop`. -/
def adjustImage (frameHeight frameWidth : ℤ) (boundingBoxes : List Box)
    (offsetW offsetH : ℤ) : Option (ℤ × ℤ × ℤ × ℤ) :=
  match listMin (xCoords boundingBoxes), listMax (xCoords boundingBoxes),
        listMin (yCoords boundingBoxes), listMax (yCoords boundingBoxes) with
  | some xmin, some xmax, some ymin, some ymax =>
    some ((adjustX frameWidth xmin xmax
            (extraFor (effOffset frameHeight frameWidth offsetW offsetH).1 (xmax - xmin) / 2)
            (extraFor (effOffset frameHeight frameWidth offsetW offsetH).1 (xmax - xmin)
              - extraFor (effOffset frameHeight frameWidth offsetW offsetH).1 (xmax - xmin) / 2)).1,
          (adjustY frameHeight ymin ymax
            (extraFor (effOffset frameHeight frameWidth offsetW offsetH).2 (ymax - ymin)
              - extraFor (effOffset frameHeight frameWidth offsetW offsetH).2 (ymax - ymin) / 2)
            (extraFor (effOffset frameHeight frameWidth offsetW offsetH).2 (ymax - ymin)
              - (extraFor (effOffset frameHeight frameWidth offsetW offsetH).2 (ymax - ymin)
                  - extraFor (effOffset frameHeight frameWidth offsetW offsetH).2 (ymax - ymin) / 2))).1,
          (adjustX frameWidth xmin xmax
            (extraFor (effOffset frameHeight frameWidth offsetW offsetH).1 (xmax - xmin) / 2)
            (extraFor (effOffset frameHeight frameWidth offsetW offsetH).1 (xmax - xmin)
              - extraFor (effOffset frameHeight frameWidth offsetW offsetH).1 (xmax - xmin) / 2)).2,
          (adjustY frameHeight ymin ymax
            (extraFor (effOffset frameHeight frameWidth offsetW offsetH).2 (ymax - ymin)
              - extraFor (effOffset frameHeight frameWidth offsetW offsetH).2 (ymax - ymin) / 2)
            (extraFor (effOffset frameHeight frameWidth offsetW offsetH).2 (ymax - ymin)
              - (extraFor (effOffset frameHeight frameWidth offsetW offsetH).2 (ymax - ymin)
                  - extraFor (effOffset frameHeight frameWidth offsetW offsetH).2 (ymax - ymin) / 2))).2)
  | _, _, _, _ => none

theorem foldl_min_ge (c : ℤ) :
    ∀ (xs : List ℤ) (x : ℤ), c ≤ x → (∀ y ∈ xs, c ≤ y) → c ≤ xs.foldl min x := by
  intro xs
  induction xs with
  | nil => intro x hx _; simpa using hx
  | cons y ys ih =>
    intro x hx hall
    simp only [List.foldl_cons]
    exact ih (min x y) (le_min hx (hall y (by simp))) (fun z hz => hall z (by simp [hz]))

theorem foldl_max_le (c : ℤ) :
    ∀ (xs : List ℤ) (x : ℤ), x ≤ c → (∀ y ∈ xs, y ≤ c) → xs.foldl max x ≤ c := by
  intro xs
  induction xs with
  | nil => intro x hx _; simpa using hx
  | cons y ys ih =>
    intro x hx hall
    simp only [List.foldl_cons]
    exact ih (max x y) (max_le hx (hall y (by simp))) (fun z hz => hall z (by simp [hz]))

theorem listMin_ge {l : List ℤ} {m c : ℤ} (h : listMin l = some m)
    (hc : ∀ x ∈ l, c ≤ x) : c ≤ m := by
  cases l with
  | nil => simp [listMin] at h
  | cons x xs =>
    simp only [listMin, Option.some.injEq] at h
    subst h
    exact foldl_min_ge c xs x (hc x (by simp)) (fun y hy => hc y (by simp [hy]))

theorem listMax_le {l : List ℤ} {m c : ℤ} (h : listMax l = some m)
    (hc : ∀ x ∈ l, x ≤ c) : m ≤ c := by
  cases l with
  | nil => simp [listMax] at h
  | cons x xs =>
    simp only [listMax, Option.some.injEq] at h
    subst h
    exact foldl_max_le c xs x (hc x (by simp)) (fun y hy => hc y (by simp [hy]))

theorem mem_xCoords {z : ℤ} :
    ∀ {boxes : List Box}, z ∈ xCoords boxes → ∃ b, b ∈ boxes ∧ (z = b.x0 ∨ z = b.x1) := by
  intro boxes
  induction boxes with
  | nil => intro h; simp [xCoords] at h
  | cons b bs ih =>
    intro h
    simp only [xCoords, List.mem_cons] at h
    rcases h with h | h | h
    · exact ⟨b, by simp, Or.inl h⟩
    · exact ⟨b, by simp, Or.inr h⟩
    · obtain ⟨b', hb', hc⟩ := ih h
      exact ⟨b', by simp [hb'], hc⟩

theorem mem_yCoords {z : ℤ} :
    ∀ {boxes : List Box}, z ∈ yCoords boxes → ∃ b, b ∈ boxes ∧ (z = b.y0 ∨ z = b.y1) := by
  intro boxes
  induction boxes with
  | nil => intro h; simp [yCoords] at h
  | cons b bs ih =>
    intro h
    simp only [yCoords, List.mem_cons] at h
    rcases h with h | h | h
    · exact ⟨b, by simp, Or.inl h⟩
    · exact ⟨b, by simp, Or.inr h⟩
    · obtain ⟨b', hb', hc⟩ := ih h
      exact ⟨b', by simp [hb'], hc⟩

theorem extraFor_pos (offsetDim roiDim : ℤ) : 0 < extraFor offsetDim roiDim := by
  unfold extraFor; split <;> omega

theorem adjustX_bounds (frameWidth xmin xmax oL oR : ℤ)
    (h0 : 0 ≤ xmin) (h1 : xmax ≤ frameWidth) (hL : 0 ≤ oL) (hR : 0 ≤ oR) :
    0 ≤ (adjustX frameWidth xmin xmax oL oR).1
    ∧ (adjustX frameWidth xmin xmax oL oR).1 ≤ xmin
    ∧ xmax ≤ (adjustX frameWidth xmin xmax oL oR).2
    ∧ (adjustX frameWidth xmin xmax oL oR).2 ≤ frameWidth := by
  unfold adjustX
  split_ifs <;> dsimp only <;> omega

theorem adjustY_bounds (frameHeight ymin ymax oT oB : ℤ)
    (h0 : 0 ≤ ymin) (h1 : ymax ≤ frameHeight) (hT : 0 ≤ oT) (hB : 0 ≤ oB)
    (hTB : oT ≤ oB + 1) :
    0 ≤ (adjustY frameHeight ymin ymax oT oB).1
    ∧ (adjustY frameHeight ymin ymax oT oB).1 ≤ ymin
    ∧ ymax ≤ (adjustY frameHeight ymin ymax oT oB).2
    ∧ (adjustY frameHeight ymin ymax oT oB).2 ≤ frameHeight := by
  unfold adjustY
  split_ifs <;> dsimp only <;> omega

/-- Claim C4: for a non-empty list of boxes lying inside the frame and
non-negative margins, the crop rectangle returned by `adjustImage` lies within
`[0, frameWidth] × [0, frameHeight]` and encloses the union box
`(uxmin, uymin, uxmax, uymax)` of the input boxes. -/
theorem adjust_in_bounds (frameHeight frameWidth offsetW offsetH : ℤ)
    (boxes : List Box) (uxmin uxmax uymin uymax : ℤ)
    (hxm : listMin (xCoords boxes) = some uxmin)
    (hxM : listMax (xCoords boxes) = some uxmax)
    (hym : listMin (yCoords boxes) = some uymin)
    (hyM : listMax (yCoords boxes) = some uymax)
    (hin : ∀ b ∈ boxes,
        (0 ≤ b.x0 ∧ b.x0 ≤ frameWidth) ∧ (0 ≤ b.x1 ∧ b.x1 ≤ frameWidth)
        ∧ (0 ≤ b.y0 ∧ b.y0 ≤ frameHeight) ∧ (0 ≤ b.y1 ∧ b.y1 ≤ frameHeight))
    (how : 0 ≤ offsetW) (hoh : 0 ≤ offsetH) :
    ∃ a b c d, adjustImage frameHeight frameWidth boxes offsetW offsetH = some (a, b, c, d)
      ∧ 0 ≤ a ∧ a ≤ uxmin ∧ uxmax ≤ c ∧ c ≤ frameWidth
      ∧ 0 ≤ b ∧ b ≤ uymin ∧ uymax ≤ d ∧ d ≤ frameHeight := by
  have h0x : 0 ≤ uxmin := by
    refine listMin_ge hxm ?_
    intro z hz
    obtain ⟨b, hb, hc⟩ := mem_xCoords hz
    rcases hc with h | h <;> subst h
    · exact ((hin b hb).1).1
    · exact ((hin b hb).2.1).1
  have h1x : uxmax ≤ frameWidth := by
    refine listMax_le hxM ?_
    intro z hz
    obtain ⟨b, hb, hc⟩ := mem_xCoords hz
    rcases hc with h | h <;> subst h
    · exact ((hin b hb).1).2
    · exact ((hin b hb).2.1).2
  have h0y : 0 ≤ uymin := by
    refine listMin_ge hym ?_
    intro z hz
    obtain ⟨b, hb, hc⟩ := mem_yCoords hz
    rcases hc with h | h <;> subst h
    · exact ((hin b hb).2.2.1).1
    · exact ((hin b hb).2.2.2).1
  have h1y : uymax ≤ frameHeight := by
    refine listMax_le hyM ?_
    intro z hz
    obtain ⟨b, hb, hc⟩ := mem_yCoords hz
    rcases hc with h | h <;> subst h
    · exact ((hin b hb).2.2.1).2
    · exact ((hin b hb).2.2.2).2
  have heX := extraFor_pos (effOffset frameHeight frameWidth offsetW offsetH).1 (uxmax - uxmin)
  have heY := extraFor_pos (effOffset frameHeight frameWidth offsetW offsetH).2 (uymax - uymin)
  have hx := adjustX_bounds frameWidth uxmin uxmax
    (extraFor (effOffset frameHeight frameWidth offsetW offsetH).1 (uxmax - uxmin) / 2)
    (extraFor (effOffset frameHeight frameWidth offsetW offsetH).1 (uxmax - uxmin)
      - extraFor (effOffset frameHeight frameWidth offsetW offsetH).1 (uxmax - uxmin) / 2)
    h0x h1x (by omega) (by omega)
  have hy := adjustY_bounds frameHeight uymin uymax
    (extraFor (effOffset frameHeight frameWidth offsetW offsetH).2 (uymax - uymin)
      - extraFor (effOffset frameHeight frameWidth offsetW offsetH).2 (uymax - uymin) / 2)
    (extraFor (effOffset frameHeight frameWidth offsetW offsetH).2 (uymax - uymin)
      - (extraFor (effOffset frameHeight frameWidth offsetW offsetH).2 (uymax - uymin)
          - extraFor (effOffset frameHeight frameWidth offsetW offsetH).2 (uymax - uymin) / 2))
    h0y h1y (by omega) (by omega) (by omega)
  refine ⟨_, _, _, _, ?_, hx.1, hx.2.1, hx.2.2.1, hx.2.2.2,
    hy.1, hy.2.1, hy.2.2.1, hy.2.2.2⟩
  unfold adjustImage
  rw [hxm, hxM, hym, hyM]

theorem adjust_in_bounds_check :
    ∃ a b c d,
      adjustImage 100 100 [⟨10, 10, 20, 20⟩, ⟨30, 30, 40, 40⟩] 5 5 = some (a, b, c, d)
      ∧ 0 ≤ a ∧ a ≤ 10 ∧ 40 ≤ c ∧ c ≤ 100
      ∧ 0 ≤ b ∧ b ≤ 10 ∧ 40 ≤ d ∧ d ≤ 100 :=
  adjust_in_bounds 100 100 5 5 [⟨10, 10, 20, 20⟩, ⟨30, 30, 40, 40⟩] 10 40 10 40
    rfl rfl rfl rfl (by decide) (by decide) (by decide)

theorem adjustX_exact (frameWidth xmin xmax oL oR : ℤ)
    (h1 : 0 ≤ xmin - oL) (h2 : xmax + oR ≤ frameWidth) :
    adjustX frameWidth xmin xmax oL oR = (xmin - oL, xmax + oR) := by
  unfold adjustX
  split_ifs <;> simp only [Prod.mk.injEq, and_true, true_and] <;> omega

theorem adjustY_exact_lt (frameHeight ymin ymax oT oB : ℤ)
    (h1 : 0 ≤ ymin - oT) (h2 : ymax + oB < frameHeight) :
    adjustY frameHeight ymin ymax oT oB = (ymin - oT, ymax + oT) := by
  unfold adjustY
  split_ifs <;> simp only [Prod.mk.injEq, and_true, true_and] <;> omega

theorem adjustY_exact_eq (frameHeight ymin ymax oT oB : ℤ)
    (h1 : 0 ≤ ymin - oT) (h2 : ymax + oB = frameHeight) :
    adjustY frameHeight ymin ymax oT oB = (ymin - oT, frameHeight) := by
  unfold adjustY
  split_ifs <;> simp only [Prod.mk.injEq, and_true, true_and] <;> omega

theorem adjustImage_eq (frameHeight frameWidth offsetW offsetH
    uxmin uxmax uymin uymax : ℤ) (boxes : List Box)
    (hxm : listMin (xCoords boxes) = some uxmin)
    (hxM : listMax (xCoords boxes) = some uxmax)
    (hym : listMin (yCoords boxes) = some uymin)
    (hyM : listMax (yCoords boxes) = some uymax) :
    adjustImage frameHeight frameWidth boxes offsetW offsetH
      = some ((adjustX frameWidth uxmin uxmax
          (extraFor (effOffset frameHeight frameWidth offsetW offsetH).1 (uxmax - uxmin) / 2)
          (extraFor (effOffset frameHeight frameWidth offsetW offsetH).1 (uxmax - uxmin)
            - extraFor (effOffset frameHeight frameWidth offsetW offsetH).1 (uxmax - uxmin) / 2)).1,
        (adjustY frameHeight uymin uymax
          (extraFor (effOffset frameHeight frameWidth offsetW offsetH).2 (uymax - uymin)
            - extraFor (effOffset frameHeight frameWidth offsetW offsetH).2 (uymax - uymin) / 2)
          (extraFor (effOffset frameHeight frameWidth offsetW offsetH).2 (uymax - uymin)
            - (extraFor (effOffset frameHeight frameWidth offsetW offsetH).2 (uymax - uymin)
                - extraFor (effOffset frameHeight frameWidth offsetW offsetH).2 (uymax - uymin) / 2))).1,
        (adjustX frameWidth uxmin uxmax
          (extraFor (effOffset frameHeight frameWidth offsetW offsetH).1 (uxmax - uxmin) / 2)
          (extraFor (effOffset frameHeight frameWidth offsetW offsetH).1 (uxmax - uxmin)
            - extraFor (effOffset frameHeight frameWidth offsetW offsetH).1 (uxmax - uxmin) / 2)).2,
        (adjustY frameHeight uymin uymax
          (extraFor (effOffset frameHeight frameWidth offsetW offsetH).2 (uymax - uymin)
            - extraFor (effOffset frameHeight frameWidth offsetW offsetH).2 (uymax - uymin) / 2)
          (extraFor (effOffset frameHeight frameWidth offsetW offsetH).2 (uymax - uymin)
            - (extraFor (effOffset frameHeight frameWidth offsetW offsetH).2 (uymax - uymin)
                - extraFor (effOffset frameHeight frameWidth offsetW offsetH).2 (uymax - uymin) / 2))).2) := by
  unfold adjustImage
  rw [hxm, hxM, hym, hyM]

/-- Claim C5 (amended): the extra space per axis is `10` when the union ROI
already meets the margin and `margin - roi` otherwise (not
`max(10, margin - roi)`); the width split is leading `extra // 2`, trailing
`extra - leading`, and when `unionXmin - leading ≥ 0` and
`unionXmax + trailing ≤ frameWidth` the width crop is exactly
`(unionXmin - leading, unionXmax + trailing)`.  The height split is trailing
`extra // 2`, leading `extra - trailing`, but when
`unionYmax + trailing < frameHeight` the code (line 216) adds the *leading*
amount on the bottom, returning `(unionYmin - leading, unionYmax + leading)`;
it returns `(unionYmin - leading, frameHeight)` when
`unionYmax + trailing = frameHeight`. -/
theorem adjust_exact_split (frameHeight frameWidth offsetW offsetH
    uxmin uxmax uymin uymax eX eY oL oR oT oB : ℤ) (boxes : List Box)
    (hxm : listMin (xCoords boxes) = some uxmin)
    (hxM : listMax (xCoords boxes) = some uxmax)
    (hym : listMin (yCoords boxes) = some uymin)
    (hyM : listMax (yCoords boxes) = some uymax)
    (heX : eX = extraFor (effOffset frameHeight frameWidth offsetW offsetH).1 (uxmax - uxmin))
    (heY : eY = extraFor (effOffset frameHeight frameWidth offsetW offsetH).2 (uymax - uymin))
    (hoL : oL = eX / 2) (hoR : oR = eX - oL)
    (hoT : oT = eY - eY / 2) (hoB : oB = eY - oT) :
    (0 ≤ uxmin - oL → uxmax + oR ≤ frameWidth →
      ∃ b d, adjustImage frameHeight frameWidth boxes offsetW offsetH
        = some (uxmin - oL, b, uxmax + oR, d))
    ∧ (0 ≤ uymin - oT → uymax + oB < frameHeight →
      ∃ a c, adjustImage frameHeight frameWidth boxes offsetW offsetH
        = some (a, uymin - oT, c, uymax + oT))
    ∧ (0 ≤ uymin - oT → uymax + oB = frameHeight →
      ∃ a c, adjustImage frameHeight frameWidth boxes offsetW offsetH
        = some (a, uymin - oT, c, frameHeight)) := by
  subst hoB hoT hoR hoL heX heY
  refine ⟨?_, ?_, ?_⟩
  · intro h1 h2
    have hmain := adjustImage_eq frameHeight frameWidth offsetW offsetH
      uxmin uxmax uymin uymax boxes hxm hxM hym hyM
    rw [adjustX_exact frameWidth uxmin uxmax _ _ h1 h2] at hmain
    exact ⟨_, _, hmain⟩
  · intro h1 h2
    have hmain := adjustImage_eq frameHeight frameWidth offsetW offsetH
      uxmin uxmax uymin uymax boxes hxm hxM hym hyM
    rw [adjustY_exact_lt frameHeight uymin uymax _ _ h1 h2] at hmain
    exact ⟨_, _, hmain⟩
  · intro h1 h2
    have hmain := adjustImage_eq frameHeight frameWidth offsetW offsetH
      uxmin uxmax uymin uymax boxes hxm hxM hym hyM
    rw [adjustY_exact_eq frameHeight uymin uymax _ _ h1 h2] at hmain
    exact ⟨_, _, hmain⟩

/-- Claim C5 counterexample: with frame 100x100, one box `(20,20,50,20)` and
margins `(35,35)` the claim predicts extra = `max(10, 35-30) = 10` on the
width axis (crop x `(15,55)`) and bottom edge `unionYmax + trailing = 37`,
but the code adds only `35 - 30 = 5` on the width axis (crop x `(18,53)`)
and `unionYmax + leading = 38` at the bottom. -/
theorem adjust_split_cex :
    adjustImage 100 100 [⟨20, 20, 50, 20⟩] 35 35 = some (18, 2, 53, 38)
    ∧ extraFor 35 (50 - 20) ≠ max 10 (35 - (50 - 20))
    ∧ adjustImage 100 100 [⟨20, 20, 50, 20⟩] 35 35 ≠ some (15, 2, 55, 37)
    ∧ (38 : ℤ) ≠ 20 + 17 := by
  refine ⟨by decide, by decide, ?_, by decide⟩
  intro h
  rw [show adjustImage 100 100 [⟨20, 20, 50, 20⟩] 35 35 = some (18, 2, 53, 38) from by decide] at h
  simp at h

theorem adjust_exact_split_check :
    ((0 : ℤ) ≤ 20 - 2 → (50 : ℤ) + 3 ≤ 100 →
      ∃ b d, adjustImage 100 100 [⟨20, 20, 50, 20⟩] 35 35 = some (20 - 2, b, 50 + 3, d))
    ∧ ((0 : ℤ) ≤ 20 - 18 → (20 : ℤ) + 17 < 100 →
      ∃ a c, adjustImage 100 100 [⟨20, 20, 50, 20⟩] 35 35 = some (a, 20 - 18, c, 20 + 18))
    ∧ ((0 : ℤ) ≤ 20 - 18 → (20 : ℤ) + 17 = 100 →
      ∃ a c, adjustImage 100 100 [⟨20, 20, 50, 20⟩] 35 35 = some (a, 20 - 18, c, 100)) :=
  adjust_exact_split 100 100 35 35 20 50 20 20 5 35 2 3 18 17 [⟨20, 20, 50, 20⟩]
    rfl rfl rfl rfl (by decide) (by decide) (by decide) (by decide) (by decide) (by decide)

/-- `ImagePreprocess.includeBoundingBoxes` (lines 246-292): keep each box whose
four coordinates lie inside `edges` (the crop rectangle), translate it by the
crop minimum, decrement a translated max coordinate that equals the crop's
local far edge, and carry labels along.  Python's `names[i]` out-of-range and
the explicit negative-coordinate `raise` become `Except.error`. -/
def includeBoundingBoxes : Box → List Box → List String → Except String (List Box × List String)
  | _, [], _ => Except.ok ([], [])
  | _, _ :: _, [] => Except.error ("IndexError: list index out of range")
  | e, b :: bs, n :: ns =>
    if (e.x0 ≤ b.x0 ∧ b.x1 ≤ e.x1) ∧ (e.y0 ≤ b.y0 ∧ b.y1 ≤ e.y1) then
      if b.x0 - e.x0 < 0 ∨ b.y0 - e.y0 < 0 then
        Except.error ("ERROR: One of the bounding boxes is negative. Report this problem.")
      else
        match includeBoundingBoxes e bs ns with
        | Except.ok (rbs, rns) =>
          Except.ok (⟨b.x0 - e.x0, b.y0 - e.y0,
            if b.x1 - e.x0 = e.x1 - e.x0 then b.x1 - e.x0 - 1 else b.x1 - e.x0,
            if b.y1 - e.y0 = e.y1 - e.y0 then b.y1 - e.y0 - 1 else b.y1 - e.y0⟩ :: rbs,
            n :: rns)
        | Except.error msg => Except.error msg
    else includeBoundingBoxes e bs ns

/-- The containment test of `includeBoundingBoxes` as a Boolean predicate. -/
def clipContains (e b : Box) : Bool :=
  decide ((e.x0 ≤ b.x0 ∧ b.x1 ≤ e.x1) ∧ (e.y0 ≤ b.y0 ∧ b.y1 ≤ e.y1))

/-- The translation (with far-edge decrement) of `includeBoundingBoxes`. -/
def clipTranslate (e b : Box) : Box :=
  ⟨b.x0 - e.x0, b.y0 - e.y0,
    if b.x1 - e.x0 = e.x1 - e.x0 then b.x1 - e.x0 - 1 else b.x1 - e.x0,
    if b.y1 - e.y0 = e.y1 - e.y0 then b.y1 - e.y0 - 1 else b.y1 - e.y0⟩

theorem includeBB_run (e : Box) :
    ∀ (boxes : List Box) (names : List String), boxes.length = names.length →
      includeBoundingBoxes e boxes names
        = Except.ok
            (((boxes.zip names).filter (fun p => clipContains e p.1)).map
                (fun p => clipTranslate e p.1),
             ((boxes.zip names).filter (fun p => clipContains e p.1)).map (fun p => p.2)) := by
  intro boxes
  induction boxes with
  | nil => intro names _; cases names <;> rfl
  | cons b bs ih =>
    intro names hlen
    cases names with
    | nil => simp at hlen
    | cons n ns =>
      have hlen' : bs.length = ns.length := by simpa using hlen
      by_cases hc : (e.x0 ≤ b.x0 ∧ b.x1 ≤ e.x1) ∧ (e.y0 ≤ b.y0 ∧ b.y1 ≤ e.y1)
      · have hneg : ¬ (b.x0 - e.x0 < 0 ∨ b.y0 - e.y0 < 0) := by omega
        have hcb : clipContains e b = true := by simp [clipContains, hc]
        simp only [includeBoundingBoxes, if_pos hc, if_neg hneg, ih ns hlen']
        simp [List.filter_cons, hcb, clipTranslate]
      · have hcb : clipContains e b = false := by
          simp only [clipContains, decide_eq_false_iff_not]; exact hc
        simp only [includeBoundingBoxes, if_neg hc, ih ns hlen']
        simp [List.filter_cons, hcb]

/-- Claim C6 (amended): `includeBoundingBoxes` keeps exactly the boxes whose
four coordinates lie within the crop rectangle, translates them by the crop
minimum, decrements a translated max coordinate equal to the crop's local far
edge, and mirrors input order with labels carried box-for-box.  Provided the
boxes are well-formed (`min ≤ max`) and the crop has positive extent on both
axes, no returned coordinate is negative and no returned *max* coordinate
reaches the crop's local extent; a returned *min* coordinate can however equal
the extent (see the counterexample), so mins are only bounded by `≤`. -/
theorem clip_characterization (e : Box) (boxes : List Box) (names : List String)
    (hlen : boxes.length = names.length)
    (hwf : ∀ b ∈ boxes, b.x0 ≤ b.x1 ∧ b.y0 ≤ b.y1)
    (hcw : e.x0 < e.x1) (hch : e.y0 < e.y1) :
    includeBoundingBoxes e boxes names
      = Except.ok
          (((boxes.zip names).filter (fun p => clipContains e p.1)).map
              (fun p => clipTranslate e p.1),
           ((boxes.zip names).filter (fun p => clipContains e p.1)).map (fun p => p.2))
    ∧ ∀ b ∈ boxes, clipContains e b = true →
        (0 ≤ (clipTranslate e b).x0 ∧ (clipTranslate e b).x0 ≤ e.x1 - e.x0)
        ∧ (0 ≤ (clipTranslate e b).y0 ∧ (clipTranslate e b).y0 ≤ e.y1 - e.y0)
        ∧ (0 ≤ (clipTranslate e b).x1 ∧ (clipTranslate e b).x1 < e.x1 - e.x0)
        ∧ (0 ≤ (clipTranslate e b).y1 ∧ (clipTranslate e b).y1 < e.y1 - e.y0) := by
  refine ⟨includeBB_run e boxes names hlen, ?_⟩
  intro b hb hcont
  have hwfb := hwf b hb
  have hc : (e.x0 ≤ b.x0 ∧ b.x1 ≤ e.x1) ∧ (e.y0 ≤ b.y0 ∧ b.y1 ≤ e.y1) := by
    simpa [clipContains] using hcont
  simp only [clipTranslate]
  split_ifs <;> refine ⟨⟨by omega, by omega⟩, ⟨by omega, by omega⟩,
    ⟨by omega, by omega⟩, ⟨by omega, by omega⟩⟩

theorem clip_characterization_check :
    (includeBoundingBoxes ⟨0, 0, 30, 30⟩ [⟨5, 5, 30, 10⟩] ["a"]
      = Except.ok
          ((([(⟨5, 5, 30, 10⟩ : Box)].zip ["a"]).filter
              (fun p => clipContains ⟨0, 0, 30, 30⟩ p.1)).map
                (fun p => clipTranslate ⟨0, 0, 30, 30⟩ p.1),
           (([(⟨5, 5, 30, 10⟩ : Box)].zip ["a"]).filter
              (fun p => clipContains ⟨0, 0, 30, 30⟩ p.1)).map (fun p => p.2))
    ∧ ∀ b ∈ [(⟨5, 5, 30, 10⟩ : Box)], clipContains ⟨0, 0, 30, 30⟩ b = true →
        (0 ≤ (clipTranslate ⟨0, 0, 30, 30⟩ b).x0
          ∧ (clipTranslate ⟨0, 0, 30, 30⟩ b).x0 ≤ (30 : ℤ) - 0)
        ∧ (0 ≤ (clipTranslate ⟨0, 0, 30, 30⟩ b).y0
          ∧ (clipTranslate ⟨0, 0, 30, 30⟩ b).y0 ≤ (30 : ℤ) - 0)
        ∧ (0 ≤ (clipTranslate ⟨0, 0, 30, 30⟩ b).x1
          ∧ (clipTranslate ⟨0, 0, 30, 30⟩ b).x1 < (30 : ℤ) - 0)
        ∧ (0 ≤ (clipTranslate ⟨0, 0, 30, 30⟩ b).y1
          ∧ (clipTranslate ⟨0, 0, 30, 30⟩ b).y1 < (30 : ℤ) - 0))
    ∧ includeBoundingBoxes ⟨0, 0, 30, 30⟩ [⟨5, 5, 30, 10⟩] ["a"]
        = Except.ok ([⟨5, 5, 29, 10⟩], ["a"]) :=
  ⟨clip_characterization ⟨0, 0, 30, 30⟩ [⟨5, 5, 30, 10⟩] ["a"]
      rfl (by decide) (by decide) (by decide),
   rfl⟩

/-- Claim C6 counterexample: the box `(10,5,10,6)` inside the crop
`(0,0,10,10)` is kept; its translated min x coordinate is `10`, which
*reaches* the crop's local extent `10 - 0` (only the max coordinate is
decremented), contradicting the claim that no returned coordinate reaches the
crop's local extent. -/
theorem clip_touching_min_edge_cex :
    includeBoundingBoxes ⟨0, 0, 10, 10⟩ [⟨10, 5, 10, 6⟩] ["a"]
      = Except.ok ([⟨10, 5, 9, 6⟩], ["a"])
    ∧ ¬ (∀ out, includeBoundingBoxes ⟨0, 0, 10, 10⟩ [⟨10, 5, 10, 6⟩] ["a"]
          = Except.ok out → ∀ p ∈ out.1, p.x0 < 10 - 0) := by
  refine ⟨rfl, ?_⟩
  intro h
  have := h ([⟨10, 5, 9, 6⟩], ["a"]) rfl ⟨10, 5, 9, 6⟩ (by simp)
  simp at this

/-- `divideIntoPatches` lines 327-345: a window or stride dimension larger
than the frame dimension is replaced by `frameDim - 1` (no lower bound). -/
def normalizeDim (dim frameDim : ℤ) : ℤ :=
  if frameDim < dim then frameDim - 1 else dim

/-- Result of `divideIntoPatches`: `(patches, numberPatchesHeight,
numberPatchesWidth)` for VALID / VALID_FIT_ALL, plus `(zeros_h, zeros_w)` for
SAME. -/
inductive PatchResult where
  | valid (patches : List Box) (numberPatchesHeight numberPatchesWidth : ℤ)
  | same (patches : List Box) (numberPatchesHeight numberPatchesWidth zeros_h zeros_w : ℤ)
deriving DecidableEq, Repr

/-- Inner loop of `divideIntoPatches`: one row of patches, appending
`[startPixelsWidth, startPixelsHeight, endPixelsWidth, endPixelsHeight]` and
advancing the width cursors by `strideWidth`. -/
def patchRow (startPixelsWidth startPixelsHeight endPixelsWidth endPixelsHeight
    strideWidth : ℤ) : ℕ → List Box
  | 0 => []
  | j + 1 =>
    ⟨startPixelsWidth, startPixelsHeight, endPixelsWidth, endPixelsHeight⟩ ::
      patchRow (startPixelsWidth + strideWidth) startPixelsHeight
        (endPixelsWidth + strideWidth) endPixelsHeight strideWidth j

/-- Outer loop of `divideIntoPatches`: rows of patches; after each row the
width cursors reset to `(0, slideWindowWidth)` and the height cursors advance
by `strideHeight`. -/
def patchGrid (slideWindowWidth strideWidth strideHeight
    startPixelsHeight endPixelsHeight : ℤ) (nw : ℕ) : ℕ → List Box
  | 0 => []
  | i + 1 =>
    patchRow 0 startPixelsHeight slideWindowWidth endPixelsHeight strideWidth nw ++
      patchGrid slideWindowWidth strideWidth strideHeight
        (startPixelsHeight + strideHeight) (endPixelsHeight + strideHeight) nw i

/-- `ImagePreprocess.divideIntoPatches` (lines 294-463).  Python defaults are
passed explicitly (`slideWindowSize`/`strideSize` default `(0, 0)`, `padding`
default "VALID", `numberPatches` default `(1, 1)`).  In the VALID_FIT_ALL
branch `math.floor(imageDim / patches)` is integer division (tile counts are
positive in every claim).  The final `else` models
`raise Exception("Type of padding not understood.")`. -/
def divideIntoPatches (fuel : ℕ) (imageWidth imageHeight : ℤ)
    (slideWindowSize strideSize : ℤ × ℤ) (padding : String)
    (numberPatches : ℤ × ℤ) : Option (Except String PatchResult) :=
  if padding = "VALID" then
    match get_valid_padding fuel
        (normalizeDim slideWindowSize.2 imageHeight) (normalizeDim strideSize.2 imageHeight)
        imageHeight
        (normalizeDim slideWindowSize.1 imageWidth) (normalizeDim strideSize.1 imageWidth)
        imageWidth with
    | some (nh, nw) =>
      some (Except.ok (PatchResult.valid
        (patchGrid (normalizeDim slideWindowSize.1 imageWidth)
          (normalizeDim strideSize.1 imageWidth) (normalizeDim strideSize.2 imageHeight)
          0 (normalizeDim slideWindowSize.2 imageHeight) nw.toNat nh.toNat)
        nh nw))
    | none => none
  else if padding = "SAME" then
    match get_same_padding fuel
        (normalizeDim slideWindowSize.2 imageHeight) (normalizeDim strideSize.2 imageHeight)
        imageHeight
        (normalizeDim slideWindowSize.1 imageWidth) (normalizeDim strideSize.1 imageWidth)
        imageWidth with
    | some (Except.ok (zeros_h, zeros_w)) =>
      match get_valid_padding fuel
          (normalizeDim slideWindowSize.2 imageHeight) (normalizeDim strideSize.2 imageHeight)
          (imageHeight + zeros_h)
          (normalizeDim slideWindowSize.1 imageWidth) (normalizeDim strideSize.1 imageWidth)
          (imageWidth + zeros_w) with
      | some (nh, nw) =>
        some (Except.ok (PatchResult.same
          (patchGrid (normalizeDim slideWindowSize.1 imageWidth)
            (normalizeDim strideSize.1 imageWidth) (normalizeDim strideSize.2 imageHeight)
            0 (normalizeDim slideWindowSize.2 imageHeight) nw.toNat nh.toNat)
          nh nw zeros_h zeros_w))
      | none => none
    | some (Except.error msg) => some (Except.error msg)
    | none => none
  else if padding = "VALID_FIT_ALL" then
    match get_valid_padding fuel
        (imageHeight / numberPatches.2) (imageHeight / numberPatches.2) imageHeight
        (imageWidth / numberPatches.1) (imageWidth / numberPatches.1) imageWidth with
    | some (nh, nw) =>
      some (Except.ok (PatchResult.valid
        (patchGrid (imageWidth / numberPatches.1) (imageWidth / numberPatches.1)
          (imageHeight / numberPatches.2) 0 (imageHeight / numberPatches.2) nw.toNat nh.toNat)
        nh nw))
    | none => none
  else some (Except.error ("Type of padding not understood."))

/-- Number of patches in a `divideIntoPatches` result. -/
def planPatchCount : Option (Except String PatchResult) → Option ℕ
  | some (Except.ok (PatchResult.valid p _ _)) => some p.length
  | some (Except.ok (PatchResult.same p _ _ _ _)) => some p.length
  | _ => none

theorem patchRow_eq (sh eh st : ℤ) :
    ∀ (n : ℕ) (sw ew : ℤ), patchRow sw sh ew eh st n
      = (List.range n).map (fun j => ⟨sw + j * st, sh, ew + j * st, eh⟩) := by
  intro n
  induction n with
  | zero => intro sw ew; rfl
  | succ m ih =>
    intro sw ew
    rw [patchRow, ih (sw + st) (ew + st), List.range_succ_eq_map]
    simp only [List.map_cons, List.map_map, Nat.cast_zero, zero_mul, add_zero]
    refine congrArg₂ _ rfl ?_
    have hfun : ((fun j : ℕ => (⟨sw + (j : ℤ) * st, sh, ew + (j : ℤ) * st, eh⟩ : Box))
          ∘ Nat.succ)
        = fun j : ℕ =>
            (⟨sw + st + (j : ℤ) * st, sh, ew + st + (j : ℤ) * st, eh⟩ : Box) := by
      funext j
      simp only [Function.comp, Nat.succ_eq_add_one, Nat.cast_add, Nat.cast_one]
      simp only [Box.mk.injEq]
      refine ⟨by ring, trivial, by ring, trivial⟩
    rw [hfun]

theorem patchRow_length (sw sh ew eh st : ℤ) (n : ℕ) :
    (patchRow sw sh ew eh st n).length = n := by
  rw [patchRow_eq]
  simp

theorem patchGrid_eq (swW stW stH : ℤ) (nw : ℕ) :
    ∀ (n : ℕ) (sh eh : ℤ), patchGrid swW stW stH sh eh nw n
      = (List.range n).flatMap (fun i =>
          (List.range nw).map (fun j =>
            ⟨(j : ℤ) * stW, sh + (i : ℤ) * stH, (j : ℤ) * stW + swW,
             eh + (i : ℤ) * stH⟩)) := by
  intro n
  induction n with
  | zero => intro sh eh; rfl
  | succ m ih =>
    intro sh eh
    rw [patchGrid, ih (sh + stH) (eh + stH), patchRow_eq, List.range_succ_eq_map]
    simp only [List.flatMap_cons, List.flatMap_map, Nat.cast_zero, zero_mul, add_zero]
    refine congrArg₂ _ ?_ ?_
    · have hfun : (fun j : ℕ => (⟨(0 : ℤ) + (j : ℤ) * stW, sh, swW + (j : ℤ) * stW, eh⟩ : Box))
          = fun j : ℕ => (⟨(j : ℤ) * stW, sh, (j : ℤ) * stW + swW, eh⟩ : Box) := by
        funext j
        simp only [Box.mk.injEq]
        refine ⟨by ring, trivial, by ring, trivial⟩
      rw [hfun]
    · congr 1
      funext i
      congr 1
      funext j
      simp only [Box.mk.injEq, Nat.succ_eq_add_one, Nat.cast_add, Nat.cast_one]
      refine ⟨trivial, by ring, trivial, by ring⟩

theorem patchGrid_length (swW stW stH : ℤ) (nw : ℕ) :
    ∀ (n : ℕ) (sh eh : ℤ), (patchGrid swW stW stH sh eh nw n).length = n * nw := by
  intro n
  induction n with
  | zero => intro sh eh; simp [patchGrid]
  | succ m ih =>
    intro sh eh
    rw [patchGrid]
    simp only [List.length_append, patchRow_length, ih]
    ring

theorem patchGrid_closed (wW wH sW sH : ℤ) (nw nh : ℕ) :
    patchGrid wW sW sH 0 wH nw nh
      = (List.range nh).flatMap (fun i : ℕ =>
          (List.range nw).map (fun j : ℕ =>
            (⟨(j : ℤ) * sW, (i : ℤ) * sH, (j : ℤ) * sW + wW, (i : ℤ) * sH + wH⟩ : Box))) := by
  rw [patchGrid_eq]
  congr 1
  funext i
  congr 1
  funext j
  simp only [Box.mk.injEq]
  refine ⟨trivial, by ring, trivial, by ring⟩

theorem normalizeDim_eq {dim frameDim : ℤ} (h : dim ≤ frameDim) :
    normalizeDim dim frameDim = dim := by
  unfold normalizeDim; rw [if_neg (not_lt.mpr h)]

theorem get_valid_padding_eq {sh sw : ℤ} (hsh : 0 < sh) (hsw : 0 < sw)
    {fuel : ℕ} {wh ih ww iw : ℤ}
    (hf1 : (ih - wh).toNat + 2 ≤ fuel) (hf2 : (iw - ww).toNat + 2 ≤ fuel) :
    get_valid_padding fuel wh sh ih ww sw iw
      = some (countValidPatchesSpec wh sh ih, countValidPatchesSpec ww sw iw) := by
  unfold get_valid_padding
  rw [growLoop_eq hsh hf1, growLoop_eq hsw hf2]

/-- Claim C8: for the VALID policy (unclamped parameters: window and stride at
most the frame dimensions, all positive), `divideIntoPatches` emits patches in
row-major order starting at `(0,0)`, the patch at row `i`, column `j` being
`(j*strideWidth, i*strideHeight, j*strideWidth + windowWidth, i*strideHeight +
windowHeight)`; the per-axis counts are `countValidPatchesSpec` per axis and
`rowCount * colCount` equals the number of patches. -/
theorem valid_policy_plan (fuel : ℕ) (imageWidth imageHeight wW wH sW sH : ℤ)
    (numberPatches : ℤ × ℤ)
    (hwW : 0 < wW) (hwH : 0 < wH) (hsW : 0 < sW) (hsH : 0 < sH)
    (hWle : wW ≤ imageWidth) (hHle : wH ≤ imageHeight)
    (hsWle : sW ≤ imageWidth) (hsHle : sH ≤ imageHeight)
    (hf1 : (imageHeight - wH).toNat + 2 ≤ fuel)
    (hf2 : (imageWidth - wW).toNat + 2 ≤ fuel) :
    divideIntoPatches fuel imageWidth imageHeight (wW, wH) (sW, sH) ("VALID") numberPatches
      = some (Except.ok (PatchResult.valid
          ((List.range (countValidPatchesSpec wH sH imageHeight).toNat).flatMap (fun i : ℕ =>
            (List.range (countValidPatchesSpec wW sW imageWidth).toNat).map (fun j : ℕ =>
              ⟨(j : ℤ) * sW, (i : ℤ) * sH, (j : ℤ) * sW + wW, (i : ℤ) * sH + wH⟩)))
          (countValidPatchesSpec wH sH imageHeight)
          (countValidPatchesSpec wW sW imageWidth)))
    ∧ ((List.range (countValidPatchesSpec wH sH imageHeight).toNat).flatMap (fun i : ℕ =>
          (List.range (countValidPatchesSpec wW sW imageWidth).toNat).map (fun j : ℕ =>
            (⟨(j : ℤ) * sW, (i : ℤ) * sH, (j : ℤ) * sW + wW, (i : ℤ) * sH + wH⟩ : Box)))).length
        = (countValidPatchesSpec wH sH imageHeight).toNat
            * (countValidPatchesSpec wW sW imageWidth).toNat := by
  constructor
  · unfold divideIntoPatches
    rw [if_pos rfl]
    dsimp only
    rw [normalizeDim_eq hHle, normalizeDim_eq hWle, normalizeDim_eq hsHle,
      normalizeDim_eq hsWle, get_valid_padding_eq hsH hsW hf1 hf2]
    dsimp only
    rw [patchGrid_closed]
  · rw [← patchGrid_closed, patchGrid_length]

theorem countValid_self_divisor {k m n : ℤ} (hk : 0 < k) (hm : 0 < m)
    (h : n = m * k) : countValidPatchesSpec k k n = m := by
  have hkn : k ≤ n := by nlinarith
  unfold countValidPatchesSpec
  rw [if_neg (not_lt.mpr hkn)]
  have hsub : n - k = (m - 1) * k := by rw [h]; ring
  rw [hsub, Int.mul_ediv_cancel _ hk.ne']
  ring

/-- Claim C7 (amended): with `tileCount = (cols, rows)` dividing the frame
dimensions exactly, the FIT_ALL policy yields exactly `rows * cols` patches.
In general the per-axis count is `floor(frameDim / floor(frameDim / tileDim))`,
which can strictly exceed the tile count (see the counterexample). -/
theorem fit_all_divisible (fuel : ℕ) (imageWidth imageHeight rows cols : ℤ)
    (hfh : 0 < imageHeight) (hfw : 0 < imageWidth)
    (hr : 0 < rows) (hc : 0 < cols)
    (hdr : rows ∣ imageHeight) (hdc : cols ∣ imageWidth)
    (hf1 : imageHeight.toNat + 2 ≤ fuel) (hf2 : imageWidth.toNat + 2 ≤ fuel) :
    ∃ P, divideIntoPatches fuel imageWidth imageHeight (0, 0) (0, 0)
          ("VALID_FIT_ALL") (cols, rows)
        = some (Except.ok (PatchResult.valid P rows cols))
      ∧ P.length = rows.toNat * cols.toNat := by
  obtain ⟨kH, hkH⟩ := hdr
  obtain ⟨kW, hkW⟩ := hdc
  have hkHpos : 0 < kH := by nlinarith
  have hkWpos : 0 < kW := by nlinarith
  have hsH : imageHeight / rows = kH := by rw [hkH, Int.mul_ediv_cancel_left _ hr.ne']
  have hsW : imageWidth / cols = kW := by rw [hkW, Int.mul_ediv_cancel_left _ hc.ne']
  have hfa : (imageHeight - kH).toNat + 2 ≤ fuel := by omega
  have hfb : (imageWidth - kW).toNat + 2 ≤ fuel := by omega
  have hgv : get_valid_padding fuel (imageHeight / rows) (imageHeight / rows) imageHeight
      (imageWidth / cols) (imageWidth / cols) imageWidth = some (rows, cols) := by
    rw [hsH, hsW, get_valid_padding_eq hkHpos hkWpos hfa hfb,
      countValid_self_divisor hkHpos hr hkH, countValid_self_divisor hkWpos hc hkW]
  refine ⟨patchGrid (imageWidth / cols) (imageWidth / cols) (imageHeight / rows) 0
      (imageHeight / rows) cols.toNat rows.toNat, ?_, ?_⟩
  · unfold divideIntoPatches
    rw [if_neg (by decide), if_neg (by decide), if_pos rfl]
    dsimp only
    rw [hgv]
  · rw [patchGrid_length]

theorem fit_all_divisible_check :
    ∃ P, divideIntoPatches 12 10 10 (0, 0) (0, 0) ("VALID_FIT_ALL") (5, 5)
        = some (Except.ok (PatchResult.valid P 5 5))
      ∧ P.length = (5 : ℤ).toNat * (5 : ℤ).toNat :=
  fit_all_divisible 12 10 10 5 5 (by decide) (by decide) (by decide) (by decide)
    (by decide) (by decide) (by decide) (by decide)

/-- Claim C7 counterexample: on a 10x10 frame with `tileCount = (4, 4)` the
FIT_ALL policy derives stride `floor(10/4) = 2` and produces
`floor(10/2) = 5` patches per axis: 25 patches, not `4 * 4 = 16`. -/
theorem fit_all_overshoot_cex :
    planPatchCount (divideIntoPatches 12 10 10 (0, 0) (0, 0) ("VALID_FIT_ALL") (4, 4))
      = some 25
    ∧ (25 : ℕ) ≠ 4 * 4 := by
  refine ⟨rfl, by decide⟩

/-- Claim C10 (amended): an oversized window or stride dimension is clamped to
`frameDim - 1` with NO lower bound of 1.  When every frame dimension is at
least 2 the clamped value is at least 1 and a single oversized window still
yields at least one patch; when a frame dimension is 1 the clamped value is 0
and the VALID computation never terminates (see the counterexample). -/
theorem oversized_window_clamped (fuel : ℕ) (imageWidth imageHeight wW wH sW sH : ℤ)
    (hfh : 2 ≤ imageHeight) (hfw : 2 ≤ imageWidth)
    (hwH : imageHeight < wH) (hwW : imageWidth < wW)
    (hstH : imageHeight < sH) (hstW : imageWidth < sW)
    (hfuel : 3 ≤ fuel) :
    normalizeDim wH imageHeight = imageHeight - 1
    ∧ 1 ≤ normalizeDim wH imageHeight
    ∧ normalizeDim wW imageWidth = imageWidth - 1
    ∧ 1 ≤ normalizeDim wW imageWidth
    ∧ ∃ P nh nw,
        divideIntoPatches fuel imageWidth imageHeight (wW, wH) (sW, sH) ("VALID") (1, 1)
          = some (Except.ok (PatchResult.valid P nh nw))
        ∧ 1 ≤ nh ∧ 1 ≤ nw ∧ P ≠ [] := by
  have hnWh : normalizeDim wH imageHeight = imageHeight - 1 := by
    unfold normalizeDim; rw [if_pos hwH]
  have hnSh : normalizeDim sH imageHeight = imageHeight - 1 := by
    unfold normalizeDim; rw [if_pos hstH]
  have hnWw : normalizeDim wW imageWidth = imageWidth - 1 := by
    unfold normalizeDim; rw [if_pos hwW]
  have hnSw : normalizeDim sW imageWidth = imageWidth - 1 := by
    unfold normalizeDim; rw [if_pos hstW]
  have hqH : 0 ≤ (imageHeight - (imageHeight - 1)) / (imageHeight - 1) :=
    Int.ediv_nonneg (by omega) (by omega)
  have hqW : 0 ≤ (imageWidth - (imageWidth - 1)) / (imageWidth - 1) :=
    Int.ediv_nonneg (by omega) (by omega)
  have hcntH : 1 ≤ countValidPatchesSpec (imageHeight - 1) (imageHeight - 1) imageHeight := by
    unfold countValidPatchesSpec
    rw [if_neg (by omega)]
    linarith
  have hcntW : 1 ≤ countValidPatchesSpec (imageWidth - 1) (imageWidth - 1) imageWidth := by
    unfold countValidPatchesSpec
    rw [if_neg (by omega)]
    linarith
  have hfa : (imageHeight - (imageHeight - 1)).toNat + 2 ≤ fuel := by omega
  have hfb : (imageWidth - (imageWidth - 1)).toNat + 2 ≤ fuel := by omega
  have hgv := get_valid_padding_eq (show (0 : ℤ) < imageHeight - 1 by omega)
    (show (0 : ℤ) < imageWidth - 1 by omega) hfa hfb
  refine ⟨hnWh, by omega, hnWw, by omega,
    patchGrid (imageWidth - 1) (imageWidth - 1) (imageHeight - 1) 0 (imageHeight - 1)
      (countValidPatchesSpec (imageWidth - 1) (imageWidth - 1) imageWidth).toNat
      (countValidPatchesSpec (imageHeight - 1) (imageHeight - 1) imageHeight).toNat,
    countValidPatchesSpec (imageHeight - 1) (imageHeight - 1) imageHeight,
    countValidPatchesSpec (imageWidth - 1) (imageWidth - 1) imageWidth,
    ?_, hcntH, hcntW, ?_⟩
  · unfold divideIntoPatches
    rw [if_pos rfl]
    dsimp only
    rw [hnWh, hnSh, hnWw, hnSw, hgv]
  · have hlen := patchGrid_length (imageWidth - 1) (imageWidth - 1) (imageHeight - 1)
      (countValidPatchesSpec (imageWidth - 1) (imageWidth - 1) imageWidth).toNat
      (countValidPatchesSpec (imageHeight - 1) (imageHeight - 1) imageHeight).toNat
      0 (imageHeight - 1)
    have hpos : 0 < (countValidPatchesSpec (imageHeight - 1) (imageHeight - 1) imageHeight).toNat
        * (countValidPatchesSpec (imageWidth - 1) (imageWidth - 1) imageWidth).toNat :=
      Nat.mul_pos (by omega) (by omega)
    intro hnil
    rw [hnil] at hlen
    simp only [List.length_nil] at hlen
    rw [← hlen] at hpos
    exact lt_irrefl 0 hpos

theorem oversized_window_clamped_check :
    normalizeDim 9 5 = 5 - 1
    ∧ 1 ≤ normalizeDim 9 5
    ∧ normalizeDim 9 5 = 5 - 1
    ∧ 1 ≤ normalizeDim 9 5
    ∧ ∃ P nh nw,
        divideIntoPatches 3 5 5 (9, 9) (9, 9) ("VALID") (1, 1)
          = some (Except.ok (PatchResult.valid P nh nw))
        ∧ 1 ≤ nh ∧ 1 ≤ nw ∧ P ≠ [] :=
  oversized_window_clamped 3 5 5 9 9 9 9 (by decide) (by decide) (by decide)
    (by decide) (by decide) (by decide) (by decide)

/-- Claim C10 counterexample: with a 1x1 frame and window/stride `(5, 5)` the
clamp sets window and stride to `0` (below 1), and the VALID planning loop
then never terminates: no patch is ever produced, for any fuel bound. -/
theorem normalize_no_lower_bound_cex :
    normalizeDim 5 1 = 0 ∧ ¬ (1 ≤ normalizeDim 5 1)
    ∧ divideIntoPatches 50 1 1 (5, 5) (5, 5) ("VALID") (1, 1) = none := by
  refine ⟨by decide, by decide, rfl⟩

theorem valid_policy_plan_check :
    divideIntoPatches 17 25 25 (10, 10) (5, 5) ("VALID") (1, 1)
      = some (Except.ok (PatchResult.valid
          ((List.range (countValidPatchesSpec 10 5 25).toNat).flatMap (fun i : ℕ =>
            (List.range (countValidPatchesSpec 10 5 25).toNat).map (fun j : ℕ =>
              ⟨(j : ℤ) * 5, (i : ℤ) * 5, (j : ℤ) * 5 + 10, (i : ℤ) * 5 + 10⟩)))
          (countValidPatchesSpec 10 5 25) (countValidPatchesSpec 10 5 25)))
    ∧ ((List.range (countValidPatchesSpec 10 5 25).toNat).flatMap (fun i : ℕ =>
          (List.range (countValidPatchesSpec 10 5 25).toNat).map (fun j : ℕ =>
            (⟨(j : ℤ) * 5, (i : ℤ) * 5, (j : ℤ) * 5 + 10, (i : ℤ) * 5 + 10⟩ : Box)))).length
        = (countValidPatchesSpec 10 5 25).toNat * (countValidPatchesSpec 10 5 25).toNat :=
  valid_policy_plan 17 25 25 10 10 5 5 (1, 1) (by decide) (by decide) (by decide)
    (by decide) (by decide) (by decide) (by decide) (by decide) (by decide) (by decide)

/-- A row of `n` zero pixels (channels collapsed to one zero value). -/
def zeroRow (n : ℕ) : List ℤ := List.replicate n 0

/-- `n` rows of `cols` zero pixels, as built by `np.zeros`. -/
def zeroRows (n cols : ℕ) : List (List ℤ) := List.replicate n (zeroRow cols)

/-- `ImagePreprocess.lazySAMEpad` (lines 567-621).  A raster is a list of rows
of pixel values; `cols` is the length of the first row (as `frame.shape`), and
an empty raster is `none` (numpy shape unpacking fails).  In `BOTH_SIDES` mode
an odd zero count is first incremented (`zeros += 1`) and then halved, so each
side receives `(zeros + zeros % 2) / 2`; in `ONE_SIDE` mode all zeros go to
the bottom and the right.  An unrecognized mode falls through, returning
`none` as in Python. -/
def lazySAMEpad (frame : List (List ℤ)) (zeros_h zeros_w : ℕ)
    (padding_type : String) : Option (List (List ℤ)) :=
  match frame with
  | [] => none
  | r0 :: _ =>
    if padding_type = "BOTH_SIDES" then
      some (((zeroRows (if zeros_h % 2 = 0 then zeros_h / 2 else (zeros_h + 1) / 2) r0.length
          ++ frame
          ++ zeroRows (if zeros_h % 2 = 0 then zeros_h / 2 else (zeros_h + 1) / 2) r0.length).map
        (fun r => zeroRow (if zeros_w % 2 = 0 then zeros_w / 2 else (zeros_w + 1) / 2)
          ++ r
          ++ zeroRow (if zeros_w % 2 = 0 then zeros_w / 2 else (zeros_w + 1) / 2))))
    else if padding_type = "ONE_SIDE" then
      some ((frame ++ zeroRows zeros_h r0.length).map (fun r => r ++ zeroRow zeros_w))
    else none

/-- Claim C9 (amended): `lazySAMEpad` in `BOTH_SIDES` mode gives each side of
an axis `ceil(amount/2) = (amount + amount % 2) / 2` zero pixels, so the
result is sized `(origHeight + zh + zh % 2, origWidth + zw + zw % 2)`: one
pixel larger than requested on an axis whose amount is odd (neither side gets
`floor(amount/2)` when the amount is odd; see the counterexample). -/
theorem lazySAMEpad_both_sides (frame : List (List ℤ)) (h w zh zw : ℕ)
    (hne : frame ≠ []) (hh : frame.length = h) (hw : ∀ r ∈ frame, r.length = w) :
    lazySAMEpad frame zh zw ("BOTH_SIDES")
      = some (zeroRows ((zh + zh % 2) / 2) (w + 2 * ((zw + zw % 2) / 2))
          ++ frame.map (fun r => zeroRow ((zw + zw % 2) / 2) ++ r ++ zeroRow ((zw + zw % 2) / 2))
          ++ zeroRows ((zh + zh % 2) / 2) (w + 2 * ((zw + zw % 2) / 2)))
    ∧ ∀ out, lazySAMEpad frame zh zw ("BOTH_SIDES") = some out →
        out.length = h + zh + zh % 2 ∧ ∀ r ∈ out, r.length = w + zw + zw % 2 := by
  obtain ⟨r0, rest, rfl⟩ : ∃ r0 rest, frame = r0 :: rest := by
    cases frame with
    | nil => exact absurd rfl hne
    | cons a l => exact ⟨a, l, rfl⟩
  have hr0 : r0.length = w := hw r0 (by simp)
  have hk : (if zh % 2 = 0 then zh / 2 else (zh + 1) / 2) = (zh + zh % 2) / 2 := by
    split <;> omega
  have hm : (if zw % 2 = 0 then zw / 2 else (zw + 1) / 2) = (zw + zw % 2) / 2 := by
    split <;> omega
  have hz : ∀ K, (zeroRows K w).map
        (fun r => zeroRow ((zw + zw % 2) / 2) ++ r ++ zeroRow ((zw + zw % 2) / 2))
      = zeroRows K (w + 2 * ((zw + zw % 2) / 2)) := by
    intro K
    unfold zeroRows zeroRow
    rw [List.map_replicate]
    congr 1
    rw [← List.replicate_add, ← List.replicate_add]
    congr 1
    omega
  have heq : lazySAMEpad (r0 :: rest) zh zw ("BOTH_SIDES")
      = some (zeroRows ((zh + zh % 2) / 2) (w + 2 * ((zw + zw % 2) / 2))
          ++ (r0 :: rest).map
              (fun r => zeroRow ((zw + zw % 2) / 2) ++ r ++ zeroRow ((zw + zw % 2) / 2))
          ++ zeroRows ((zh + zh % 2) / 2) (w + 2 * ((zw + zw % 2) / 2))) := by
    unfold lazySAMEpad
    dsimp only
    rw [hk, hm, hr0]
    rw [List.map_append, List.map_append, hz]
    rw [if_pos rfl]
  refine ⟨heq, ?_⟩
  intro out hout
  rw [heq] at hout
  have hout' : out = zeroRows ((zh + zh % 2) / 2) (w + 2 * ((zw + zw % 2) / 2))
      ++ (r0 :: rest).map
          (fun r => zeroRow ((zw + zw % 2) / 2) ++ r ++ zeroRow ((zw + zw % 2) / 2))
      ++ zeroRows ((zh + zh % 2) / 2) (w + 2 * ((zw + zw % 2) / 2)) := by
    injection hout.symm
  subst hout'
  constructor
  · simp only [List.length_append, List.length_map, zeroRows, List.length_replicate,
      List.length_cons]
    simp only [List.length_cons] at hh
    omega
  · intro r hr
    simp only [List.mem_append] at hr
    rcases hr with (hr | hr) | hr
    · have := List.eq_of_mem_replicate hr
      rw [this]
      simp [zeroRow]
      omega
    · rw [List.mem_map] at hr
      obtain ⟨r', hr', rfl⟩ := hr
      simp only [List.length_append, zeroRow, List.length_replicate]
      have := hw r' hr'
      omega
    · have := List.eq_of_mem_replicate hr
      rw [this]
      simp [zeroRow]
      omega

theorem lazySAMEpad_both_sides_check :
    (lazySAMEpad [[5]] 1 1 ("BOTH_SIDES")
      = some (zeroRows ((1 + 1 % 2) / 2) (1 + 2 * ((1 + 1 % 2) / 2))
          ++ ([[5]] : List (List ℤ)).map
              (fun r => zeroRow ((1 + 1 % 2) / 2) ++ r ++ zeroRow ((1 + 1 % 2) / 2))
          ++ zeroRows ((1 + 1 % 2) / 2) (1 + 2 * ((1 + 1 % 2) / 2)))
    ∧ ∀ out, lazySAMEpad [[5]] 1 1 ("BOTH_SIDES") = some out →
        out.length = 1 + 1 + 1 % 2 ∧ ∀ r ∈ out, r.length = 1 + 1 + 1 % 2)
    ∧ lazySAMEpad [[5]] 1 1 ("BOTH_SIDES") = some [[0, 0, 0], [0, 5, 0], [0, 0, 0]] :=
  ⟨lazySAMEpad_both_sides [[5]] 1 1 1 1 (by simp) (by simp) (by simp),
   rfl⟩

/-- Claim C9 counterexample: padding a 1x1 raster with `zeros_h = 1` (odd) in
SYMMETRIC mode returns 3 rows, not `1 + 1 = 2`: the odd amount is rounded up
and both sides receive a full pixel, instead of the trailing side getting the
extra unit. -/
theorem lazySAMEpad_odd_cex :
    (lazySAMEpad [[5]] 1 0 ("BOTH_SIDES")).map List.length = some 3
    ∧ (3 : ℕ) ≠ 1 + 1
    ∧ lazySAMEpad [[5]] 1 0 ("BOTH_SIDES") = some [[0], [5], [0]] := by
  refine ⟨rfl, by decide, rfl⟩
